import Mathlib

/-!
Verification development for the HEALTH personal health-metrics tracker.

The analytics engine (`src/lib/analytics.ts`), the validation utilities
(`src/lib/validation.ts`), the metrics / AI-insights / export request
handlers (`src/app/api/metrics/route.ts`, `src/app/api/ai-insights/route.ts`,
`src/unnamed/part_003`) are shallowly embedded below.  JavaScript numbers are
modelled as rationals; `Math.round` is modelled exactly (round half toward
positive infinity); stateful request handlers are modelled as pure functions
of the data they read (the database rows and the external text reply appear
as explicit arguments).
-/

namespace Health

/-- Trend labels produced by `calculateTrend` in `src/lib/analytics.ts`. -/
inductive Trend where
  | improving
  | declining
  | stable
deriving DecidableEq

/-- Blood-pressure composite payload (`BloodPressureData`, `src/lib/analytics.ts`). -/
structure BloodPressureData where
  systolic : ℚ
  diastolic : ℚ
  pulse : Option ℚ
deriving DecidableEq

/-- One health-metric row (`HealthMetric`, `src/lib/analytics.ts`).  The
`timestamp` string of the source is modelled by the numeric epoch time
`new Date(timestamp).getTime()` that every comparison in the source reduces
the string to. -/
structure HealthMetric where
  id : ℕ
  user_id : ℕ
  metric_type : String
  value : ℚ
  unit : Option String
  composite_data : Option BloodPressureData
  timestamp : ℕ
deriving DecidableEq

/-- Analysis record produced per metric type (`MetricAnalysis`, `src/lib/analytics.ts`). -/
structure MetricAnalysis where
  metricType : String
  current : ℚ
  average : ℚ
  min : ℚ
  max : ℚ
  trend : Trend
  projection7Days : List ℚ
  unit : Option String
deriving DecidableEq

/-- Rounding to 2 decimals, `Math.round(x * 100) / 100`, as used throughout
`src/lib/analytics.ts`.  JavaScript `Math.round(y)` is `⌊y + 1/2⌋` for every
finite `y` (round half toward positive infinity). -/
def jsRound2 (x : ℚ) : ℚ := ((⌊x * 100 + 1 / 2⌋ : ℤ) : ℚ) / 100

/-- Trend classifier `calculateTrend` (`src/lib/analytics.ts`, lines 55-69).  `slice(0, k)` and
`slice(k)` with `k = Math.floor(length / 2)` are `take` and `drop`;
`reduce((a, b) => a + b, 0) / length` is `sum / length`. -/
def calculateTrend (values : List ℚ) : Trend :=
  if values.length < 2 then .stable
  else
    let firstHalf := values.take (values.length / 2)
    let secondHalf := values.drop (values.length / 2)
    let firstAvg := firstHalf.sum / (firstHalf.length : ℚ)
    let secondAvg := secondHalf.sum / (secondHalf.length : ℚ)
    let change := secondAvg - firstAvg
    if |change| < firstAvg * (5 / 100) then .stable
    else if change < 0 then .improving
    else .declining

/-- Projection `projectNext7Days` (`src/lib/analytics.ts`, lines 71-99).  `slice(-n)` for
`1 ≤ n ≤ length` keeps the last `n` elements; the `for` loop accumulating
`sumX`, `sumY`, `sumXY`, `sumX2` over `i = 0 .. recentValues.length - 1` is
expressed with sums over `List.range` / `List.enum`; the loop pushing
`i = 1 .. 7` is the map over `List.range 7` with `i + 1`. -/
def projectNext7Days (values : List ℚ) : List ℚ :=
  if values.length = 0 then []
  else
    let n : ℕ := min values.length 14
    let recentValues := values.drop (values.length - n)
    let sumX : ℚ := ((List.range recentValues.length).map (fun (i : ℕ) => (i : ℚ))).sum
    let sumY : ℚ := recentValues.sum
    let sumXY : ℚ := (recentValues.enum.map (fun p => (p.1 : ℚ) * p.2)).sum
    let sumX2 : ℚ := ((List.range recentValues.length).map (fun (i : ℕ) => (i : ℚ) * (i : ℚ))).sum
    let slope := ((n : ℚ) * sumXY - sumX * sumY) / ((n : ℚ) * sumX2 - sumX * sumX)
    let intercept := (sumY - slope * sumX) / (n : ℚ)
    (List.range 7).map (fun (i : ℕ) => jsRound2 (intercept + slope * ((recentValues.length : ℚ) + ((i : ℚ) + 1))))

/-- Key list of `groupMetricsByType` (`src/lib/analytics.ts`, lines 33-44): the
reduce over the rows creates one record key per distinct `metric_type`, in
order of first appearance. -/
def typeKeys (metrics : List HealthMetric) : List String :=
  metrics.foldl (fun acc m => if m.metric_type ∈ acc then acc else acc ++ [m.metric_type]) []

/-- Grouping `groupMetricsByType` (`src/lib/analytics.ts`, lines 33-44): each key maps to
the rows of that type in their original order (the reduce pushes them in
traversal order, which is exactly `filter`). -/
def groupMetricsByType (metrics : List HealthMetric) : List (String × List HealthMetric) :=
  (typeKeys metrics).map (fun t => (t, metrics.filter (fun m => m.metric_type == t)))

/-- Placeholder row for the (unreachable) head of an empty group: the source
indexes `sortedByTime[0]` without a guard, which can only be reached with a
nonempty group (see `group_mem_nonempty`). -/
def defaultMetric : HealthMetric :=
  { id := 0, user_id := 0, metric_type := "", value := 0, unit := none,
    composite_data := none, timestamp := 0 }

/-- Body of the map in `analyzeMetrics` (`src/lib/analytics.ts`, lines 104-120)
for one `(metricType, metricList)` group.  `sort((a, b) => a - b)` on the
values is an ascending sort; `sort((a, b) => tb - ta)` on the rows is a
descending sort by timestamp; both are modelled by `insertionSort` (JS `sort`
is stable, as is insertion sort). -/
def analyzeGroup (metricType : String) (metricList : List HealthMetric) : MetricAnalysis :=
  let values := (metricList.map (·.value)).insertionSort (· ≤ ·)
  let sortedByTime := metricList.insertionSort (fun a b => b.timestamp ≤ a.timestamp)
  { metricType := metricType
    current := (sortedByTime.headD defaultMetric).value
    average := jsRound2 (values.sum / (values.length : ℚ))
    min := values.headD 0
    max := values.getLastD 0
    trend := calculateTrend values
    projection7Days := projectNext7Days values
    unit := (sortedByTime.headD defaultMetric).unit }

/-- Top-level `analyzeMetrics` (`src/lib/analytics.ts`, lines 101-121). -/
def analyzeMetrics (metrics : List HealthMetric) : List MetricAnalysis :=
  (groupMetricsByType metrics).map (fun g => analyzeGroup g.1 g.2)

/-- Model of the JavaScript builtin `String.prototype.trim`: strip whitespace
from both ends. -/
def jsTrim (s : String) : String :=
  String.mk (((s.data.dropWhile (·.isWhitespace)).reverse.dropWhile (·.isWhitespace)).reverse)

/-- Model of the JavaScript builtin `String.prototype.toLowerCase` for the
ASCII tokens compared here. -/
def jsToLower (s : String) : String := String.mk (s.data.map Char.toLower)

/-- Defaulting of an optional string parameter, `String(x or-else d)`:
a missing parameter and the empty string are both falsy in JavaScript and
yield the default. -/
def jsOrDefault (d : String) : Option String → String
  | none => d
  | some s => if s = "" then d else s

/-- Allow-list check `validateDays` (`src/lib/validation.ts`, lines 21-31). -/
def validateDays (days : Option String) : String :=
  let daysStr := jsTrim (jsOrDefault "30" days)
  if daysStr ∈ ["7", "30", "90", "365"] then daysStr else "30"

/-- Allow-list check `validateExportFormat` (`src/lib/validation.ts`, lines 122-132). -/
def validateExportFormat (format : Option String) : String :=
  let fmt := jsTrim (jsToLower (jsOrDefault "csv" format))
  if fmt ∈ ["csv", "markdown", "html", "text"] then fmt else "csv"

/-- The `days` value the metrics GET handler actually queries with
(`src/app/api/metrics/route.ts`, lines 4-26): the raw
`searchParams.get(days) or-else the literal 30` is interpolated into the SQL text
`INTERVAL ... days` without ever calling `validateDays`. -/
def metricsRouteEffectiveDays (daysParam : Option String) : String :=
  jsOrDefault "30" daysParam

/-- The four literal branches of the export GET handler. -/
inductive ExportFormat where
  | csv
  | markdown
  | html
  | text
deriving DecidableEq

/-- Branch selection of the export GET handler (`src/unnamed/part_003`):
the format parameter defaulted to csv when missing or empty, then
compared against the literals csv, markdown and html in order, any other
token falling through to plain text.  `validateExportFormat` is never called
on this path. -/
def exportRouteFormatBranch (formatParam : Option String) : ExportFormat :=
  let format := jsOrDefault "csv" formatParam
  if format = "csv" then .csv
  else if format = "markdown" then .markdown
  else if format = "html" then .html
  else .text

/-- The JSON body shape built by the AI-insights handler on its non-parsed
paths: a narrative plus recommendation and anomaly lists. -/
structure InsightPayload where
  insights : String
  recommendations : List String
  anomalies : List String
deriving DecidableEq

/-- The canned reply the AI-insights handler returns when the user has no
rows (`src/app/api/ai-insights/route.ts`, lines 29-35). -/
def noDataPayload : InsightPayload :=
  { insights := "No health data available yet. Start tracking your health metrics to get personalized insights."
    recommendations := []
    anomalies := [] }

/-- What crosses the request boundary of the AI-insights POST handler: a 200
response carrying `JSON.parse` of the extracted span, a 200 response carrying
an `InsightPayload`, or the 500 response produced by the catch-all of the handler. -/
inductive InsightResponse where
  | parsedJson (span : String)
  | payload (p : InsightPayload)
  | serverError
deriving DecidableEq

/-- The left-brace character, written numerically. -/
def braceOpen : Char := Char.ofNat 123

/-- The right-brace character, written numerically. -/
def braceClose : Char := Char.ofNat 125

/-- Model of `responseText.match` applied to the regex that spans from a
left brace over arbitrary characters to a right brace
(`src/app/api/ai-insights/route.ts`, line 66).  The quantifier is greedy, so
when any match exists it runs from the first left brace to the last right
brace of the whole text; otherwise the match is `null`. -/
def extractBraceSpan (s : String) : Option String :=
  let l := s.data
  match l.findIdx? (· == braceOpen), (l.reverse.findIdx? (· == braceClose)).map (l.length - 1 - ·) with
  | some i, some j => if i < j then some (String.mk ((l.drop i).take (j - i + 1))) else none
  | _, _ => none

/-- JSON whitespace. -/
def jsonWs (c : Char) : Bool := c = ' ' || c = '\t' || c = '\n' || c = '\r'

/-- Drop leading JSON whitespace. -/
def skipWs (l : List Char) : List Char := l.dropWhile jsonWs

/-- Consume the literal `lit` from the front of `l`. -/
def takeLit : List Char → List Char → Option (List Char)
  | [], l => some l
  | _ :: _, [] => none
  | c :: cs, d :: ds => if c = d then takeLit cs ds else none

/-- Consume the remainder of a JSON string after its opening quote.  Model of
the string production accepted by the builtin `JSON.parse` (simplified: any
escaped character is accepted). -/
def jsonStringRest : List Char → Option (List Char)
  | [] => none
  | '"' :: rest => some rest
  | '\\' :: [] => none
  | '\\' :: _ :: rest => jsonStringRest rest
  | _ :: rest => jsonStringRest rest

/-- Consume one or more decimal digits. -/
def takeDigits1 (l : List Char) : Option (List Char) :=
  if (l.takeWhile (·.isDigit)).isEmpty then none else some (l.dropWhile (·.isDigit))

/-- Consume a JSON number.  Model of the number production accepted by the
builtin `JSON.parse` (simplified: leading zeros are tolerated). -/
def jsonNumberRest (l : List Char) : Option (List Char) :=
  let l1 := if l.head? = some '-' then l.tail else l
  match takeDigits1 l1 with
  | none => none
  | some l2 =>
    let l3 := match l2 with
      | '.' :: r => takeDigits1 r
      | _ => some l2
    match l3 with
    | none => none
    | some l4 =>
      match l4 with
      | c :: r =>
        if c = 'e' ∨ c = 'E' then
          takeDigits1 (match r with
            | '+' :: r2 => r2
            | '-' :: r2 => r2
            | _ => r)
        else some l4
      | [] => some []

/-- Parsing modes of the JSON acceptance model: a value, the inside of an
object (after the opening brace), an object member list, the inside of an
array (after the opening bracket), and an array element list. -/
inductive JsonMode where
  | val
  | objRest
  | members
  | arrRest
  | elems

/-- Fuel-indexed acceptance model of the JavaScript builtin `JSON.parse`:
returns the unconsumed remainder on success.  Every recursive call spends one
unit of fuel, so `4 * (length + 1)` fuel is ample for the inputs this
development evaluates it on. -/
def jsonRun : ℕ → JsonMode → List Char → Option (List Char)
  | 0, _, _ => none
  | f + 1, .val, l =>
    match skipWs l with
    | [] => none
    | c :: rest =>
      if c = braceOpen then jsonRun f .objRest rest
      else if c = '[' then jsonRun f .arrRest rest
      else if c = '"' then jsonStringRest rest
      else if c = 'n' then takeLit ['u', 'l', 'l'] rest
      else if c = 't' then takeLit ['r', 'u', 'e'] rest
      else if c = 'f' then takeLit ['a', 'l', 's', 'e'] rest
      else jsonNumberRest (c :: rest)
  | f + 1, .objRest, l =>
    match skipWs l with
    | [] => none
    | c :: rest => if c = braceClose then some rest else jsonRun f .members (c :: rest)
  | f + 1, .members, l =>
    match skipWs l with
    | '"' :: rest =>
      match jsonStringRest rest with
      | none => none
      | some l1 =>
        match skipWs l1 with
        | ':' :: l2 =>
          match jsonRun f .val l2 with
          | none => none
          | some l3 =>
            match skipWs l3 with
            | [] => none
            | c :: l4 =>
              if c = ',' then jsonRun f .members l4
              else if c = braceClose then some l4
              else none
        | _ => none
    | _ => none
  | f + 1, .arrRest, l =>
    match skipWs l with
    | [] => none
    | c :: rest => if c = ']' then some rest else jsonRun f .elems (c :: rest)
  | f + 1, .elems, l =>
    match jsonRun f .val l with
    | none => none
    | some l1 =>
      match skipWs l1 with
      | [] => none
      | c :: l2 =>
        if c = ',' then jsonRun f .elems l2
        else if c = ']' then some l2
        else none

/-- Acceptance test of the builtin `JSON.parse`: the whole text must be one
JSON value followed only by whitespace. -/
def jsonParses (s : String) : Bool :=
  match jsonRun (4 * (s.length + 1)) .val s.data with
  | some rest => skipWs rest = []
  | none => false

/-- The AI-insights POST handler (`src/app/api/ai-insights/route.ts`),
modelled at the request boundary: the database query result is the `metrics`
argument and the raw reply of the external text-generation dependency is the
`aiReply` argument, consulted only on the path that calls the dependency.
The second component records whether that external call happened.  The
handler body runs inside `try`/`catch`, so a `JSON.parse` failure on the
extracted span surfaces as the catch-all 500 response, never as an
exception. -/
def aiInsightsPost (metrics : List HealthMetric) (aiReply : String) : InsightResponse × Bool :=
  if metrics.length = 0 then
    (.payload noDataPayload, false)
  else
    match extractBraceSpan aiReply with
    | some span => if jsonParses span then (.parsedJson span, true) else (.serverError, true)
    | none => (.payload { insights := aiReply, recommendations := [], anomalies := [] }, true)

/-- One row as the CSV branch of the export handler writes it (the columns
its query selects).  The JS template stringifies the numeric `value`; the
model takes the already-rendered decimal string, since the round-trip claim
compares rendered text on both sides. -/
structure CsvRow where
  metric_type : String
  value : String
  unit : Option String
  timestamp : String
deriving DecidableEq

/-- The CSV header line (`src/unnamed/part_003`, line 38). -/
def csvHeader : String := "Metric Type,Value,Unit,Timestamp\n"

/-- Wrap a field in double quotes, exactly as the export template does (no
escaping of embedded quotes). -/
def quoteField (s : String) : String := "\"" ++ s ++ "\""

/-- One CSV line of the export (`src/unnamed/part_003`, lines 39-41):
four quoted fields, a null unit rendered as the empty string. -/
def renderCsvRow (r : CsvRow) : String :=
  quoteField r.metric_type ++ "," ++ quoteField r.value ++ "," ++
    quoteField (r.unit.getD "") ++ "," ++ quoteField r.timestamp ++ "\n"

/-- The CSV branch of the export GET handler (`src/unnamed/part_003`,
lines 35-41): `content` starts as the header and the `forEach` appends one
line per row, in order — a left fold of string append. -/
def renderCsv (rows : List CsvRow) : String :=
  csvHeader ++ rows.foldl (fun content r => content ++ renderCsvRow r) ""

/-- The (type, value, unit, timestamp) tuple a CSV reader recovers. -/
abbrev CsvTuple := String × String × String × String

/-- Modelled from the spec: re-parsing an exported CSV.  No CSV reader exists
in the repository, so the standard reader for this dialect is modelled: a
quoted field extends to the next double quote. -/
def readQuoted (l : List Char) : Option (List Char × List Char) :=
  match l with
  | '"' :: rest =>
    match rest.dropWhile (· != '"') with
    | '"' :: rest2 => some (rest.takeWhile (· != '"'), rest2)
    | _ => none
  | _ => none

/-- Modelled from the spec: consume one expected separator character. -/
def readSep (c : Char) (l : List Char) : Option (List Char) :=
  match l with
  | d :: rest => if d = c then some rest else none
  | [] => none

/-- Modelled from the spec: one CSV record of the standard reader — four
quoted fields separated by commas, terminated by a newline. -/
def readRecord (l : List Char) : Option (CsvTuple × List Char) := do
  let (f1, l1) ← readQuoted l
  let l2 ← readSep ',' l1
  let (f2, l3) ← readQuoted l2
  let l4 ← readSep ',' l3
  let (f3, l5) ← readQuoted l4
  let l6 ← readSep ',' l5
  let (f4, l7) ← readQuoted l6
  let l8 ← readSep '\n' l7
  pure ((String.mk f1, String.mk f2, String.mk f3, String.mk f4), l8)

/-- Modelled from the spec: the record list of the standard CSV reader
(fuel-indexed; each record consumes at least one character). -/
def readRecords : ℕ → List Char → Option (List CsvTuple)
  | _, [] => some []
  | 0, _ :: _ => none
  | f + 1, c :: l =>
    match readRecord (c :: l) with
    | none => none
    | some (t, rest) => (readRecords f rest).map (t :: ·)

/-- Modelled from the spec: parse an exported CSV document — the exact header
line, then the records. -/
def parseCsv (s : String) : Option (List CsvTuple) :=
  match takeLit csvHeader.data s.data with
  | none => none
  | some rest => readRecords rest.length rest

/-- The tuple the export writes for a row: a null unit becomes the empty
string. -/
def csvTupleOf (r : CsvRow) : CsvTuple :=
  (r.metric_type, r.value, r.unit.getD "", r.timestamp)

/-- No field of the row contains a double quote (the export template does not
escape quotes, so this is the well-formedness boundary of its output). -/
def quoteFreeRow (r : CsvRow) : Bool :=
  decide ('"' ∉ r.metric_type.data) && decide ('"' ∉ r.value.data) &&
    decide ('"' ∉ (r.unit.getD "").data) && decide ('"' ∉ r.timestamp.data)

/-- Every row is quote-free. -/
def quoteFreeRows (rows : List CsvRow) : Bool := rows.all quoteFreeRow

/-- The fitted window of the spec: the last `min(length, 14)` values. -/
def specFitWindow (values : List ℚ) : List ℚ :=
  values.drop (values.length - min values.length 14)

/-- The standard sum `Σx` of the spec over 0-based positions of the window. -/
def specSumX (w : List ℚ) : ℚ := ((List.range w.length).map (fun (i : ℕ) => (i : ℚ))).sum

/-- The standard sum `Σy` of the spec over the window values. -/
def specSumY (w : List ℚ) : ℚ := w.sum

/-- The standard sum `Σxy` of the spec over position-value pairs of the window. -/
def specSumXY (w : List ℚ) : ℚ := (w.enum.map (fun p => (p.1 : ℚ) * p.2)).sum

/-- The standard sum `Σx²` of the spec over 0-based positions of the window. -/
def specSumX2 (w : List ℚ) : ℚ :=
  ((List.range w.length).map (fun (i : ℕ) => (i : ℚ) * (i : ℚ))).sum

/-- The ordinary least-squares slope from the standard sums of the spec, with `n`
the window length. -/
def specSlope (w : List ℚ) : ℚ :=
  ((w.length : ℚ) * specSumXY w - specSumX w * specSumY w) /
    ((w.length : ℚ) * specSumX2 w - specSumX w * specSumX w)

/-- The ordinary least-squares intercept from the standard sums of the spec. -/
def specIntercept (w : List ℚ) : ℚ :=
  (specSumY w - specSlope w * specSumX w) / (w.length : ℚ)

/-- The projection as the spec words it: empty for empty input, otherwise the
7 forward points at window-relative positions `windowLength + 1` through
`windowLength + 7`, each `intercept + slope * position` rounded to 2 decimal
places. -/
def specProjection (values : List ℚ) : List ℚ :=
  if values = [] then []
  else
    let w := specFitWindow values
    (List.range 7).map (fun (i : ℕ) =>
      jsRound2 (specIntercept w + specSlope w * ((w.length : ℚ) + ((i : ℚ) + 1))))

/-- Three Weight rows with values 180, 178, 176 at strictly increasing
timestamps (the scenario batch of the spec). -/
def c9rows : List HealthMetric :=
  [⟨1, 1, "Weight", 180, some "lbs", none, 1⟩,
   ⟨2, 1, "Weight", 178, some "lbs", none, 2⟩,
   ⟨3, 1, "Weight", 176, some "lbs", none, 3⟩]

/-- A single Steps row whose value 0.004 rounds below itself. -/
def smallValueRows : List HealthMetric := [⟨1, 1, "Steps", 1 / 250, some "steps", none, 5⟩]

/-- A one-row batch making the AI-insights handler take its non-empty path. -/
def oneRow : List HealthMetric := [⟨1, 1, "Weight", 180, some "lbs", none, 1⟩]

/-- A dependency reply whose brace span is not valid JSON. -/
def notJsonReply : String := "\x7bnot json\x7d"

/-- The summary fields of one analysis: average, min, max, current. -/
def summaryOf (a : MetricAnalysis) : ℚ × ℚ × ℚ × ℚ := (a.average, a.min, a.max, a.current)

/-- The average and min fields of one analysis. -/
def avgMinOf (a : MetricAnalysis) : ℚ × ℚ := (a.average, a.min)

/-- A CSV row whose metric type contains a double quote. -/
def quotedTypeRow : CsvRow := ⟨"a\"b", "1", some "u", "t"⟩

/-- Two well-behaved CSV rows, one with a null unit. -/
def plainCsvRows : List CsvRow :=
  [⟨"Weight", "180", some "lbs", "2024-01-01T00:00:00Z"⟩,
   ⟨"Steps", "10000", none, "2024-01-02"⟩]

/-- All rows of one metric type (hypothesis form used by the analysis
theorems). -/
def allOfType (t : String) (ms : List HealthMetric) : Bool :=
  ms.all (fun m => m.metric_type == t)

/-- The value column of a batch, in row order. -/
def valuesOf (ms : List HealthMetric) : List ℚ := ms.map (·.value)

/-- The analysis `analyzeMetrics` produces for the single-row batch
`oneRow` (used as a concrete witness input). -/
def c10analysis : MetricAnalysis :=
  { metricType := "Weight", current := 180, average := 180, min := 180, max := 180,
    trend := .stable, projection7Days := [180, 180, 180, 180, 180, 180, 180],
    unit := some "lbs" }

/-- C9: For the batch of three Weight rows with values 180, 178, 176 at
strictly increasing timestamps, `analyzeMetrics` returns a single
`MetricAnalysis` with average 178, min 176, max 180, and current 176 (the
value of the row with the maximum timestamp). -/
theorem C9_weight_scenario :
    (analyzeMetrics c9rows).map summaryOf = [((178 : ℚ), 176, 180, 176)] := by
  norm_num [analyzeMetrics, groupMetricsByType, typeKeys, analyzeGroup, c9rows,
    List.insertionSort, List.orderedInsert, List.filter, jsRound2, summaryOf,
    calculateTrend, projectNext7Days]

/-- C4: The claim says a `days` value outside the allow-list, such as "45",
silently falls back to an effective 30-day window.  The metrics GET handler
actually queries with the raw value "45": it never calls `validateDays`,
which would indeed have returned "30". -/
theorem C4_metrics_route_uses_raw_days :
    metricsRouteEffectiveDays (some "45") = "45" ∧
    validateDays (some "45") = "30" := by decide

/-- C5 counterexample: the export route sends the unsupported format token
"pdf" to its plain-text branch, not to CSV; the unused `validateExportFormat`
is the function that would have produced "csv". -/
theorem C5_cex_pdf_falls_to_text :
    exportRouteFormatBranch (some "pdf") = ExportFormat.text ∧
    ExportFormat.text ≠ ExportFormat.csv ∧
    validateExportFormat (some "pdf") = "csv" := by decide

/-- C5 amended: every nonempty format token other than `csv`, `markdown` and
`html` — including unsupported tokens such as "pdf", and also `text` itself —
selects the plain-text branch of the export route. -/
theorem C5_unrecognized_format_is_text (s : String) (h1 : s ≠ "")
    (h2 : s ∉ (["csv", "markdown", "html"] : List String)) :
    exportRouteFormatBranch (some s) = ExportFormat.text := by
  simp only [List.mem_cons, List.not_mem_nil, or_false, not_or] at h2
  simp [exportRouteFormatBranch, jsOrDefault, h1, h2.1, h2.2.1, h2.2.2]

/-- C5 witness: the amended statement at the concrete token "pdf". -/
theorem C5_unrecognized_format_is_text_w :
    (("pdf" : String) ≠ "" ∧ ("pdf" : String) ∉ (["csv", "markdown", "html"] : List String)) ∧
    exportRouteFormatBranch (some "pdf") = ExportFormat.text :=
  ⟨⟨by decide, by decide⟩, C5_unrecognized_format_is_text "pdf" (by decide) (by decide)⟩

/-- C6: For a user whose metric list for the window is empty, the AI-insights
handler returns the canned no-data narrative with empty recommendation and
anomaly lists, and the external text-generation dependency is not called,
whatever it would have replied. -/
theorem C6_empty_metrics_no_ai_call (aiReply : String) :
    aiInsightsPost [] aiReply = (.payload noDataPayload, false) ∧
    noDataPayload.recommendations = [] ∧ noDataPayload.anomalies = [] :=
  ⟨rfl, rfl, rfl⟩

/-- C7 counterexample: on a reply whose brace span is not valid JSON, the
handler produces the catch-all 500 response, not the fallback object that
wraps the raw text. -/
theorem C7_cex_unparsed_span_is_500 :
    (aiInsightsPost oneRow notJsonReply).1 = InsightResponse.serverError ∧
    InsightResponse.serverError ≠
      InsightResponse.payload ⟨notJsonReply, [], []⟩ := by decide

/-- C7 amended: the composer extracts the greedy span from the first left
brace to the last right brace; only when no such span exists does it fall
back to wrapping the raw text as the narrative with empty lists; when a span
exists but does not parse as JSON, the thrown parse error is converted by the
catch-all of the handler into the 500 error response — in every case a response,
never an exception, crosses the request boundary. -/
theorem C7_fallback_only_when_no_span (metrics : List HealthMetric) (reply span : String)
    (hm : metrics ≠ []) :
    (extractBraceSpan reply = none →
      aiInsightsPost metrics reply = (.payload ⟨reply, [], []⟩, true)) ∧
    (extractBraceSpan reply = some span → jsonParses span = false →
      aiInsightsPost metrics reply = (.serverError, true)) := by
  have hlen : ¬ metrics.length = 0 := by simpa [List.length_eq_zero] using hm
  constructor
  · intro h; simp [aiInsightsPost, hlen, h]
  · intro h hp; simp [aiInsightsPost, hlen, h, hp]

/-- C7 witness: the amended statement at the concrete reply "abc", which has
no brace span. -/
theorem C7_fallback_only_when_no_span_w :
    (oneRow ≠ [] ∧ extractBraceSpan "abc" = none) ∧
    aiInsightsPost oneRow "abc" = (.payload ⟨"abc", [], []⟩, true) :=
  ⟨⟨by decide, by decide⟩,
   (C7_fallback_only_when_no_span oneRow "abc" "" (by decide)).1 (by decide)⟩

/-- C1 counterexample: the constant sequence of two zeros is classified
declining, not stable — with a zero first-half mean the stability test
compares the absolute change against zero strictly and fails. -/
theorem C1_cex_constant_zero_declining :
    calculateTrend [(0 : ℚ), 0] = Trend.declining ∧
    Trend.declining ≠ Trend.stable :=
  ⟨by norm_num [calculateTrend], by decide⟩

/-- C2 counterexample: a single Steps row of value 0.004 produces an analysis
whose average, 0.004 rounded to 2 decimals, is 0 — strictly below its own
min, so `min ≤ average ≤ max` fails on the code. -/
theorem C2_cex_rounding_below_min :
    (analyzeMetrics smallValueRows).map avgMinOf = [((0 : ℚ), 1 / 250)] ∧
    ¬ ((1 : ℚ) / 250 ≤ 0) := by
  refine ⟨?_, by norm_num⟩
  norm_num [analyzeMetrics, groupMetricsByType, typeKeys, analyzeGroup, smallValueRows,
    List.insertionSort, List.orderedInsert, List.filter, jsRound2, avgMinOf,
    calculateTrend, projectNext7Days]

/-- C8 counterexample: the export template does not escape embedded double
quotes, so a row whose metric type contains one produces a CSV that does not
re-parse at all, let alone reproduce the source tuples. -/
theorem C8_cex_embedded_quote_breaks_roundtrip :
    parseCsv (renderCsv [quotedTypeRow]) = none ∧
    (none : Option (List CsvTuple)) ≠ some [csvTupleOf quotedTypeRow] := by decide


/-- A nonempty list whose elements are all at most `c` has average at most
`c`. -/
lemma avg_le_of_forall_le (l : List ℚ) (c : ℚ) (hne : l ≠ []) (h : ∀ x ∈ l, x ≤ c) :
    l.sum / (l.length : ℚ) ≤ c := by
  have hpos : (0 : ℚ) < (l.length : ℚ) := by exact_mod_cast List.length_pos.mpr hne
  rw [div_le_iff₀ hpos]
  have hs := List.sum_le_card_nsmul l c h
  rwa [nsmul_eq_mul, mul_comm] at hs

/-- A nonempty list whose elements are all at least `c` has average at least
`c`. -/
lemma le_avg_of_forall_le (l : List ℚ) (c : ℚ) (hne : l ≠ []) (h : ∀ x ∈ l, c ≤ x) :
    c ≤ l.sum / (l.length : ℚ) := by
  have hpos : (0 : ℚ) < (l.length : ℚ) := by exact_mod_cast List.length_pos.mpr hne
  rw [le_div_iff₀ hpos]
  have hs := List.card_nsmul_le_sum l c h
  rwa [nsmul_eq_mul, mul_comm] at hs

/-- In a sorted list, every element of `take k` is at most every element of
`drop k`. -/
lemma sorted_take_le_drop (l : List ℚ) (hs : l.Sorted (· ≤ ·)) (k : ℕ)
    (x y : ℚ) (hx : x ∈ l.take k) (hy : y ∈ l.drop k) : x ≤ y := by
  have hsp : (l.take k ++ l.drop k).Sorted (· ≤ ·) := by
    rw [List.take_append_drop]; exact hs
  exact (List.pairwise_append.mp hsp).2.2 x hx y hy

/-- For a sorted list of length at least 2, the first-half average is at most
the second-half average — the midpoint split of `calculateTrend`. -/
lemma sorted_half_avg_le (values : List ℚ) (hs : values.Sorted (· ≤ ·))
    (h2 : 2 ≤ values.length) :
    (values.take (values.length / 2)).sum / ((values.take (values.length / 2)).length : ℚ) ≤
      (values.drop (values.length / 2)).sum / ((values.drop (values.length / 2)).length : ℚ) := by
  have hA : values.take (values.length / 2) ≠ [] :=
    List.length_pos.mp (by rw [List.length_take]; omega)
  have hB : values.drop (values.length / 2) ≠ [] :=
    List.length_pos.mp (by rw [List.length_drop]; omega)
  obtain ⟨b, B2, hBeq⟩ := List.exists_cons_of_ne_nil hB
  have hbB : b ∈ values.drop (values.length / 2) := by
    rw [hBeq]; exact List.mem_cons_self _ _
  have h1 : (values.take (values.length / 2)).sum /
      ((values.take (values.length / 2)).length : ℚ) ≤ b :=
    avg_le_of_forall_le _ b hA (fun x hx => sorted_take_le_drop values hs _ x b hx hbB)
  have hBsorted : (values.drop (values.length / 2)).Sorted (· ≤ ·) :=
    List.Pairwise.sublist (List.drop_sublist _ _) hs
  have hge : ∀ y ∈ values.drop (values.length / 2), b ≤ y := by
    intro y hy
    rw [hBeq] at hy hBsorted
    rcases List.mem_cons.mp hy with rfl | hy
    · exact le_refl y
    · exact List.rel_of_sorted_cons hBsorted y hy
  exact le_trans h1 (le_avg_of_forall_le _ b hB hge)

/-- On a value-sorted input the change computed by `calculateTrend` is never
negative, so the classifier cannot answer `improving`. -/
lemma calculateTrend_sorted_not_improving (values : List ℚ) (hs : values.Sorted (· ≤ ·)) :
    calculateTrend values = Trend.stable ∨ calculateTrend values = Trend.declining := by
  by_cases hl : values.length < 2
  · left; simp [calculateTrend, hl]
  · have h2 : 2 ≤ values.length := not_lt.mp hl
    have hmono := sorted_half_avg_le values hs h2
    simp only [calculateTrend, if_neg hl]
    split_ifs with hstable himp
    · left; rfl
    · exact absurd himp (not_lt.mpr (sub_nonneg.mpr hmono))
    · right; rfl

/-- C10: every `MetricAnalysis` produced by `analyzeMetrics` has trend
`stable` or `declining` — `improving` is unreachable, because the value list
is sorted ascending by value before trend classification, which makes the
second-half mean at least the first-half mean. -/
theorem C10_trend_never_improving (ms : List HealthMetric) (a : MetricAnalysis)
    (ha : a ∈ analyzeMetrics ms) :
    a.trend = Trend.stable ∨ a.trend = Trend.declining := by
  obtain ⟨g, hg, rfl⟩ := List.mem_map.mp ha
  exact calculateTrend_sorted_not_improving _ (List.sorted_insertionSort _ _)

/-- C10 witness: the theorem at the concrete one-row batch, whose single
analysis is `c10analysis`. -/
theorem C10_trend_never_improving_w :
    c10analysis ∈ analyzeMetrics oneRow ∧
    (c10analysis.trend = Trend.stable ∨ c10analysis.trend = Trend.declining) := by
  have h : analyzeMetrics oneRow = [c10analysis] := by
    norm_num [analyzeMetrics, groupMetricsByType, typeKeys, analyzeGroup, oneRow,
      List.insertionSort, List.orderedInsert, List.filter, jsRound2,
      calculateTrend, projectNext7Days, c10analysis, List.range_succ, List.enum,
      List.enumFrom, List.sum_append, List.map_append]
  have hmem : c10analysis ∈ analyzeMetrics oneRow := by
    rw [h]; exact List.mem_cons_self _ _
  exact ⟨hmem, C10_trend_never_improving oneRow c10analysis hmem⟩

/-- The average of a constant list is the constant. -/
lemma replicate_avg (n : ℕ) (c : ℚ) (hn : n ≠ 0) :
    (List.replicate n c).sum / ((List.replicate n c).length : ℚ) = c := by
  have h : ((n : ℚ)) ≠ 0 := Nat.cast_ne_zero.mpr hn
  rw [List.sum_replicate, List.length_replicate, nsmul_eq_mul]
  field_simp

/-- C1 amended: for every constant sequence of length at least 2 whose
constant value is positive, `calculateTrend` returns `stable` (the change is
zero and the 5 percent stability band around a positive first-half mean is
nonempty); for a zero or negative constant the band is empty and the
classifier answers `declining` instead. -/
theorem C1_const_positive_stable (c : ℚ) (k : ℕ) (hk : 2 ≤ k) (hc : 0 < c) :
    calculateTrend (List.replicate k c) = Trend.stable := by
  have hlen : (List.replicate k c).length = k := List.length_replicate k c
  have hnl : ¬ k < 2 := by omega
  have htake : (List.replicate k c).take (k / 2) = List.replicate (k / 2) c := by
    rw [List.take_replicate]
    congr 1
    omega
  have hdrop : (List.replicate k c).drop (k / 2) = List.replicate (k - k / 2) c :=
    List.drop_replicate c (k / 2) k
  have havg1 := replicate_avg (k / 2) c (by omega)
  have havg2 := replicate_avg (k - k / 2) c (by omega)
  simp only [calculateTrend, hlen, if_neg hnl, htake, hdrop, havg1, havg2]
  rw [sub_self, abs_zero]
  rw [if_pos (mul_pos hc (by norm_num : (0 : ℚ) < 5 / 100))]

/-- C1 witness: the amended statement at the constant sequence of two ones. -/
theorem C1_const_positive_stable_w :
    (2 ≤ 2 ∧ (0 : ℚ) < 1) ∧ calculateTrend (List.replicate 2 (1 : ℚ)) = Trend.stable :=
  ⟨⟨by decide, by decide⟩, C1_const_positive_stable 1 2 (by decide) (by decide)⟩


/-- Folding the grouping step over rows of one type leaves an accumulator
that already contains that type unchanged. -/
lemma typeKeys_foldl_absorb (ms : List HealthMetric) (t : String) :
    ∀ acc : List String, (∀ m ∈ ms, m.metric_type = t) → t ∈ acc →
      ms.foldl (fun a m => if m.metric_type ∈ a then a else a ++ [m.metric_type]) acc = acc := by
  induction ms with
  | nil => intro acc _ _; rfl
  | cons m ms ih =>
    intro acc hall ht
    have hmt : m.metric_type = t := hall m (List.mem_cons_self _ _)
    rw [List.foldl_cons, if_pos (by rw [hmt]; exact ht)]
    exact ih acc (fun x hx => hall x (List.mem_cons_of_mem _ hx)) ht

/-- A nonempty batch of one type produces exactly one group key. -/
lemma typeKeys_uniform (ms : List HealthMetric) (t : String)
    (hne : ms ≠ []) (hall : ∀ m ∈ ms, m.metric_type = t) :
    typeKeys ms = [t] := by
  obtain ⟨m, ms2, rfl⟩ := List.exists_cons_of_ne_nil hne
  have hmt : m.metric_type = t := hall m (List.mem_cons_self _ _)
  unfold typeKeys
  rw [List.foldl_cons, if_neg (List.not_mem_nil _), List.nil_append]
  rw [typeKeys_foldl_absorb ms2 t [m.metric_type]
    (fun x hx => hall x (List.mem_cons_of_mem _ hx))
    (by rw [hmt]; exact List.mem_cons_self _ _)]
  rw [hmt]

/-- Filtering a one-type batch by that type keeps every row. -/
lemma filter_uniform (ms : List HealthMetric) (t : String)
    (hall : ∀ m ∈ ms, m.metric_type = t) :
    ms.filter (fun m => m.metric_type == t) = ms := by
  rw [List.filter_eq_self]
  intro m hm
  simp [hall m hm]

/-- On a nonempty one-type batch, `analyzeMetrics` is a single group analysed
whole. -/
lemma analyzeMetrics_uniform (ms : List HealthMetric) (t : String)
    (hne : ms ≠ []) (hall : ∀ m ∈ ms, m.metric_type = t) :
    analyzeMetrics ms = [analyzeGroup t ms] := by
  unfold analyzeMetrics groupMetricsByType
  rw [typeKeys_uniform ms t hne hall]
  simp only [List.map_cons, List.map_nil]
  rw [filter_uniform ms t hall]

/-- In a sorted list the head bounds every element from below. -/
lemma sorted_headD_le (l : List ℚ) (hs : l.Sorted (· ≤ ·)) (x : ℚ) (hx : x ∈ l) :
    l.headD 0 ≤ x := by
  cases l with
  | nil => exact absurd hx (List.not_mem_nil x)
  | cons a l =>
    rcases List.mem_cons.mp hx with rfl | hx
    · exact le_refl x
    · exact List.rel_of_sorted_cons hs x hx

/-- In a sorted list the last element bounds every element from above. -/
lemma sorted_le_getLast : ∀ (l : List ℚ) (h : l ≠ []), l.Sorted (· ≤ ·) →
    ∀ x ∈ l, x ≤ l.getLast h
  | [], h, _, _, _ => absurd rfl h
  | [a], _, _, x, hx => by
    rcases List.mem_cons.mp hx with rfl | hx
    · exact le_refl _
    · exact absurd hx (List.not_mem_nil x)
  | a :: b :: l, h, hs, x, hx => by
    have hgl : (a :: b :: l).getLast h = (b :: l).getLast (List.cons_ne_nil b l) :=
      List.getLast_cons (List.cons_ne_nil b l)
    rw [hgl]
    rcases List.mem_cons.mp hx with rfl | hx
    · exact List.rel_of_sorted_cons hs _ (List.getLast_mem (List.cons_ne_nil b l))
    · exact sorted_le_getLast (b :: l) (List.cons_ne_nil b l) hs.of_cons x hx

/-- On a nonempty list `getLastD` with any default is the last element. -/
lemma getLastD_of_ne_nil (l : List ℚ) (h : l ≠ []) : l.getLastD 0 = l.getLast h := by
  rw [List.getLastD_eq_getLast?, List.getLast?_eq_getLast l h]
  rfl

/-- Rounding to 2 decimals moves a rational down by less than half a cent. -/
lemma le_jsRound2 (x : ℚ) : x - 1 / 200 ≤ jsRound2 x := by
  unfold jsRound2
  have h : x * 100 + 1 / 2 - 1 < ((⌊x * 100 + 1 / 2⌋ : ℤ) : ℚ) :=
    Int.sub_one_lt_floor (x * 100 + 1 / 2)
  linarith

/-- Rounding to 2 decimals moves a rational up by at most half a cent. -/
lemma jsRound2_le (x : ℚ) : jsRound2 x ≤ x + 1 / 200 := by
  unfold jsRound2
  have h : ((⌊x * 100 + 1 / 2⌋ : ℤ) : ℚ) ≤ x * 100 + 1 / 2 :=
    Int.floor_le (x * 100 + 1 / 2)
  linarith

/-- C2 amended: for every nonempty batch of rows of one type, the single
`MetricAnalysis` produced by `analyzeMetrics` has `average` equal to the
arithmetic mean of the values rounded to 2 decimal places, and the rounded
average stays within half a cent of the `min`-`max` interval:
`min - 1/200 ≤ average ≤ max + 1/200`.  (The unrounded claim
`min ≤ average ≤ max` fails, see the counterexample.) -/
theorem C2_average_rounded_and_bounded (ms : List HealthMetric) (t : String)
    (hne : ms ≠ []) (hall : allOfType t ms = true) :
    analyzeMetrics ms = [analyzeGroup t ms] ∧
    (analyzeGroup t ms).average = jsRound2 ((valuesOf ms).sum / ((valuesOf ms).length : ℚ)) ∧
    (analyzeGroup t ms).min - 1 / 200 ≤ (analyzeGroup t ms).average ∧
    (analyzeGroup t ms).average ≤ (analyzeGroup t ms).max + 1 / 200 := by
  have hall2 : ∀ m ∈ ms, m.metric_type = t := by
    intro m hm
    exact eq_of_beq (List.all_eq_true.mp hall m hm)
  have hperm : List.Perm ((ms.map (·.value)).insertionSort (· ≤ ·)) (ms.map (·.value)) :=
    List.perm_insertionSort _ _
  have hsorted : ((ms.map (·.value)).insertionSort (· ≤ ·)).Sorted (· ≤ ·) :=
    List.sorted_insertionSort _ _
  have hvne : (ms.map (·.value)).insertionSort (· ≤ ·) ≠ [] := by
    apply List.length_pos.mp
    rw [hperm.length_eq, List.length_map]
    exact List.length_pos.mpr hne
  have havg : (analyzeGroup t ms).average
      = jsRound2 (((ms.map (·.value)).insertionSort (· ≤ ·)).sum
        / ((((ms.map (·.value)).insertionSort (· ≤ ·))).length : ℚ)) := rfl
  have hminf : (analyzeGroup t ms).min = ((ms.map (·.value)).insertionSort (· ≤ ·)).headD 0 := rfl
  have hmaxf : (analyzeGroup t ms).max
      = ((ms.map (·.value)).insertionSort (· ≤ ·)).getLastD 0 := rfl
  have hmean_lo : ((ms.map (·.value)).insertionSort (· ≤ ·)).headD 0 ≤
      ((ms.map (·.value)).insertionSort (· ≤ ·)).sum
        / ((((ms.map (·.value)).insertionSort (· ≤ ·))).length : ℚ) :=
    le_avg_of_forall_le _ _ hvne (sorted_headD_le _ hsorted)
  have hmean_hi : ((ms.map (·.value)).insertionSort (· ≤ ·)).sum
        / ((((ms.map (·.value)).insertionSort (· ≤ ·))).length : ℚ) ≤
      ((ms.map (·.value)).insertionSort (· ≤ ·)).getLastD 0 := by
    apply avg_le_of_forall_le _ _ hvne
    intro x hx
    rw [getLastD_of_ne_nil _ hvne]
    exact sorted_le_getLast _ hvne hsorted x hx
  refine ⟨analyzeMetrics_uniform ms t hne hall2, ?_, ?_, ?_⟩
  · rw [havg, valuesOf, hperm.sum_eq, hperm.length_eq]
  · rw [havg, hminf]
    have hlo := le_jsRound2 (((ms.map (·.value)).insertionSort (· ≤ ·)).sum
      / ((((ms.map (·.value)).insertionSort (· ≤ ·))).length : ℚ))
    linarith
  · rw [havg, hmaxf]
    have hhi := jsRound2_le (((ms.map (·.value)).insertionSort (· ≤ ·)).sum
      / ((((ms.map (·.value)).insertionSort (· ≤ ·))).length : ℚ))
    linarith

/-- C2 witness: the amended statement at the concrete one-row Weight batch. -/
theorem C2_average_rounded_and_bounded_w :
    (oneRow ≠ [] ∧ allOfType "Weight" oneRow = true) ∧
    (analyzeMetrics oneRow = [analyzeGroup "Weight" oneRow] ∧
      (analyzeGroup "Weight" oneRow).average
        = jsRound2 ((valuesOf oneRow).sum / ((valuesOf oneRow).length : ℚ)) ∧
      (analyzeGroup "Weight" oneRow).min - 1 / 200 ≤ (analyzeGroup "Weight" oneRow).average ∧
      (analyzeGroup "Weight" oneRow).average ≤ (analyzeGroup "Weight" oneRow).max + 1 / 200) :=
  ⟨⟨by decide, by decide⟩,
   C2_average_rounded_and_bounded oneRow "Weight" (by decide) (by decide)⟩

/-- C3: for every nonempty value list `projectNext7Days` returns exactly 7
values and agrees pointwise with the spec-side ordinary least-squares
projection (`specProjection`, fitted over the last `min(length, 14)` values
with the standard sums, emitting positions `windowLength + 1` through
`windowLength + 7` rounded to 2 decimals); for the empty list it returns the
empty list. -/
theorem C3_projection_matches_spec (values : List ℚ) :
    (values = [] → projectNext7Days values = []) ∧
    (values ≠ [] →
      (projectNext7Days values).length = 7 ∧
      projectNext7Days values = specProjection values) := by
  constructor
  · intro h; subst h; rfl
  · intro h
    have hlen0 : values.length ≠ 0 := fun hl => h (List.length_eq_zero.mp hl)
    have hwlen : (values.drop (values.length - min values.length 14)).length
        = min values.length 14 := by
      rw [List.length_drop]; omega
    have heq : projectNext7Days values = specProjection values := by
      simp only [projectNext7Days, specProjection, specFitWindow, specSlope, specIntercept,
        specSumX, specSumY, specSumXY, specSumX2, if_neg hlen0, if_neg h, hwlen]
    refine ⟨?_, heq⟩
    rw [heq, specProjection, if_neg h]
    simp only [List.length_map, List.length_range]

/-- C3 witness: the statement at the concrete two-point list. -/
theorem C3_projection_matches_spec_w :
    ([(1 : ℚ), 2] ≠ [] ∧ (projectNext7Days [(1 : ℚ), 2]).length = 7) ∧
    projectNext7Days [(1 : ℚ), 2] = specProjection [(1 : ℚ), 2] :=
  ⟨⟨by decide, ((C3_projection_matches_spec [(1 : ℚ), 2]).2 (by decide)).1⟩,
   ((C3_projection_matches_spec [(1 : ℚ), 2]).2 (by decide)).2⟩


/-- Consuming an exact literal from the front succeeds and leaves the rest. -/
lemma takeLit_append (p r : List Char) : takeLit p (p ++ r) = some r := by
  induction p with
  | nil => rfl
  | cons c cs ih => simp [takeLit, ih]

/-- Taking characters up to the closing quote recovers a quote-free field. -/
lemma takeWhile_ne_quote (f rest : List Char) (hf : '"' ∉ f) :
    (f ++ '"' :: rest).takeWhile (· != '"') = f := by
  induction f with
  | nil => simp [List.takeWhile_cons]
  | cons c cs ih =>
    have hc : (c != '"') = true := by
      simp only [bne_iff_ne, ne_eq]
      exact fun h => hf (by rw [h]; exact List.mem_cons_self _ _)
    simp only [List.cons_append, List.takeWhile_cons, hc, if_true]
    rw [ih (fun h => hf (List.mem_cons_of_mem _ h))]

/-- Dropping characters up to the closing quote stops exactly at that quote. -/
lemma dropWhile_ne_quote (f rest : List Char) (hf : '"' ∉ f) :
    (f ++ '"' :: rest).dropWhile (· != '"') = '"' :: rest := by
  induction f with
  | nil => simp [List.dropWhile_cons]
  | cons c cs ih =>
    have hc : (c != '"') = true := by
      simp only [bne_iff_ne, ne_eq]
      exact fun h => hf (by rw [h]; exact List.mem_cons_self _ _)
    simp only [List.cons_append, List.dropWhile_cons, hc, if_true]
    exact ih (fun h => hf (List.mem_cons_of_mem _ h))

/-- Reading one quoted, quote-free field recovers the field and the rest. -/
lemma readQuoted_append (f rest : List Char) (hf : '"' ∉ f) :
    readQuoted ('"' :: (f ++ '"' :: rest)) = some (f, rest) := by
  unfold readQuoted
  simp [takeWhile_ne_quote f rest hf, dropWhile_ne_quote f rest hf]

/-- The character shape of one rendered CSV line. -/
lemma renderCsvRow_data (r : CsvRow) (rest : List Char) :
    (renderCsvRow r).data ++ rest
      = '"' :: (r.metric_type.data ++ '"' :: ',' ::
        ('"' :: (r.value.data ++ '"' :: ',' ::
        ('"' :: ((r.unit.getD "").data ++ '"' :: ',' ::
        ('"' :: (r.timestamp.data ++ '"' :: '\n' :: rest))))))) := by
  simp [renderCsvRow, quoteField, String.data_append, List.append_assoc]

/-- Parsing one rendered, quote-free CSV line recovers the row tuple. -/
lemma readRecord_append (r : CsvRow) (rest : List Char)
    (h1 : '"' ∉ r.metric_type.data) (h2 : '"' ∉ r.value.data)
    (h3 : '"' ∉ (r.unit.getD "").data) (h4 : '"' ∉ r.timestamp.data) :
    readRecord ((renderCsvRow r).data ++ rest) = some (csvTupleOf r, rest) := by
  rw [renderCsvRow_data]
  simp [readRecord, readQuoted_append _ _ h1, readQuoted_append _ _ h2,
    readQuoted_append _ _ h3, readQuoted_append _ _ h4, readSep, csvTupleOf]

/-- A rendered CSV line is never empty. -/
lemma renderCsvRow_data_ne_nil (r : CsvRow) : (renderCsvRow r).data ≠ [] := by
  have h := renderCsvRow_data r []
  rw [List.append_nil] at h
  rw [h]
  exact List.cons_ne_nil _ _

/-- The export body fold appends one rendered line per row. -/
lemma foldl_render_data (rows : List CsvRow) (s : String) :
    (rows.foldl (fun content r => content ++ renderCsvRow r) s).data
      = s.data ++ (rows.map (fun r => (renderCsvRow r).data)).flatten := by
  induction rows generalizing s with
  | nil => simp
  | cons r rs ih =>
    rw [List.foldl_cons, ih, List.map_cons, List.flatten_cons, String.data_append,
      List.append_assoc]

/-- Reading back the concatenation of rendered quote-free lines recovers all
row tuples, given enough fuel. -/
lemma readRecords_flatten (rows : List CsvRow) (hq : quoteFreeRows rows = true) :
    ∀ fuel, ((rows.map (fun r => (renderCsvRow r).data)).flatten).length ≤ fuel →
      readRecords fuel ((rows.map (fun r => (renderCsvRow r).data)).flatten)
        = some (rows.map csvTupleOf) := by
  induction rows with
  | nil =>
    intro fuel _
    cases fuel <;> rfl
  | cons r rs ih =>
    intro fuel hfuel
    have hq2 : quoteFreeRow r = true ∧ quoteFreeRows rs = true := by
      simpa [quoteFreeRows, List.all_cons, Bool.and_eq_true] using hq
    obtain ⟨hqr, hqs⟩ := hq2
    have h1234 : (('"' ∉ r.metric_type.data ∧ '"' ∉ r.value.data) ∧
        '"' ∉ (r.unit.getD "").data) ∧ '"' ∉ r.timestamp.data := by
      simpa [quoteFreeRow, Bool.and_eq_true, decide_eq_true_eq] using hqr
    obtain ⟨⟨⟨h1, h2⟩, h3⟩, h4⟩ := h1234
    have hrne : (renderCsvRow r).data ≠ [] := renderCsvRow_data_ne_nil r
    obtain ⟨c, l2, hc⟩ := List.exists_cons_of_ne_nil hrne
    rw [List.map_cons, List.flatten_cons]
    cases fuel with
    | zero =>
      exfalso
      rw [List.map_cons, List.flatten_cons, List.length_append, hc] at hfuel
      simp at hfuel
    | succ f =>
      have hrw : (renderCsvRow r).data ++ (rs.map (fun r => (renderCsvRow r).data)).flatten
          = c :: (l2 ++ (rs.map (fun r => (renderCsvRow r).data)).flatten) := by
        rw [hc, List.cons_append]
      rw [hrw]
      show (match readRecord (c :: (l2 ++ (rs.map (fun r => (renderCsvRow r).data)).flatten)) with
        | none => none
        | some (t, rest) => (readRecords f rest).map (t :: ·)) = _
      rw [← List.cons_append, ← hc, readRecord_append r _ h1 h2 h3 h4]
      have hlen : ((rs.map (fun r => (renderCsvRow r).data)).flatten).length ≤ f := by
        rw [List.map_cons, List.flatten_cons, List.length_append, hc,
          List.length_cons] at hfuel
        omega
      show (readRecords f ((rs.map (fun r => (renderCsvRow r).data)).flatten)).map
          (csvTupleOf r :: ·) = some (List.map csvTupleOf (r :: rs))
      rw [ih hqs f hlen]
      rfl

/-- C8 amended: for every list of rows none of whose rendered fields contains
a double quote, rendering the CSV export and re-parsing it reproduces exactly
the source (type, value, unit, timestamp) tuples, a null unit re-reading as
the empty string.  (With an embedded double quote the round trip fails, see
the counterexample — the export template does not escape quotes.) -/
theorem C8_roundtrip_quote_free (rows : List CsvRow) (hq : quoteFreeRows rows = true) :
    parseCsv (renderCsv rows) = some (rows.map csvTupleOf) := by
  unfold parseCsv renderCsv
  rw [String.data_append, foldl_render_data]
  show (match takeLit csvHeader.data
      (csvHeader.data ++ (String.mk []).data ++ (rows.map (fun r => (renderCsvRow r).data)).flatten) with
    | none => none
    | some rest => readRecords rest.length rest) = _
  rw [List.append_assoc, takeLit_append]
  exact readRecords_flatten rows hq _ (le_refl _)

/-- C8 witness: the amended statement at a concrete two-row export, one row
with a null unit. -/
theorem C8_roundtrip_quote_free_w :
    quoteFreeRows plainCsvRows = true ∧
    parseCsv (renderCsv plainCsvRows) = some (plainCsvRows.map csvTupleOf) :=
  ⟨by decide, C8_roundtrip_quote_free plainCsvRows (by decide)⟩

end Health
